import Mathlib

/-!
Verification of the CRMint pipeline-orchestration controller backend
against its natural-language specification.

The development is a shallow embedding of the Python sources under
`src/backend/`: each Flask handler becomes a pure Lean function from the
relevant persisted state and parsed request payload to an HTTP outcome
together with a trace, in program order, of the operations it invokes on
the model layer (`models.Job`, `models.Pipeline`), the task queue and the
logger.  The model layer itself (`models.py`) is not part of the sources;
where a claim depends on it, the corresponding operation is either left
as an uninterpreted effect in the trace or modelled from the spec, as
noted in the doc comment of each such definition.
-/

namespace Crmint

/-- Outcome of an HTTP handler: a normal response with status code and
body, or an uncaught Python exception (the request fails with a 5xx). -/
inductive Outcome where
  | ok (status : Nat) (body : String)
  | pyError (exn : String)
deriving DecidableEq, Repr

/-! ## Result Processor (src/backend/controller/result/views.py) -/

/-- Parsed payload of a task-result callback (`common.result.Result`):
`\x7btask_name, job_id, success, workers_to_enqueue\x7d` per spec §6. -/
structure ResultPayload where
  task_name : String
  job_id : Nat
  success : Bool
  workers_to_enqueue : List (String × String)
deriving DecidableEq, Repr

/-- A persisted Job row together with the names of its live
`TaskEnqueued` records. -/
structure JobRec where
  id : Nat
  pipeline_id : Nat
  tasks : List String
deriving DecidableEq, Repr

/-- One operation invoked by the result handler on the model layer, the
task queue or the logger, recorded in program order. -/
inductive Effect where
  | logMsg (level : String) (msg : String)
  | enqueue (worker : String) (params : String)
  | taskSucceeded (task : String)
  | taskFailed (task : String)
deriving DecidableEq, Repr

/-- `models.Job.find(job_id)`: the job row with the given primary key. -/
def findJob (db : List JobRec) (jid : Nat) : Option JobRec :=
  db.find? (fun j => j.id == jid)

/-- `Job._get_tasks_with_name(task_name)`: live task records of this job
carrying the given name. -/
def tasksWithName (j : JobRec) (name : String) : List String :=
  j.tasks.filter (fun t => t == name)

/-- `ResultResource.post` (result/views.py lines 33-73), after the
payload has been parsed.  Calls into the model layer are recorded as
effects.  When `models.Job.find` returns `None`, the source logs an
error and then evaluates `job.task_failed(res.task_name)` with
`job = None`, which raises `AttributeError` before the
`return 'Job not found', 200` line can be reached. -/
def resultPost (db : List JobRec) (res : ResultPayload) : Outcome × List Effect :=
  match findJob db res.job_id with
  | none =>
      (Outcome.pyError "AttributeError",
       [Effect.logMsg "ERROR" s!"Job with ID {res.job_id} not found."])
  | some job =>
      let existing := tasksWithName job res.task_name
      if existing.isEmpty then
        let warn := Effect.logMsg "WARNING"
          s!"Duplicate or unknown task result received for task name: {res.task_name}."
        if res.success then
          (Outcome.ok 200 "Task already processed or unknown.",
           warn ::
             (res.workers_to_enqueue.map (fun a => Effect.enqueue a.1 a.2) ++
              [Effect.taskSucceeded res.task_name]))
        else
          (Outcome.ok 200 "Task already processed or unknown.",
           [warn, Effect.taskFailed res.task_name])
      else
        if res.success then
          (Outcome.ok 200 "OK",
           res.workers_to_enqueue.map (fun a => Effect.enqueue a.1 a.2) ++
             [Effect.taskSucceeded res.task_name])
        else
          (Outcome.ok 200 "OK", [Effect.taskFailed res.task_name])

/-- Is this effect a task-queue enqueue? -/
def isEnqueueFx : Effect → Bool
  | Effect.enqueue _ _ => true
  | _ => false

/-- Does every enqueue in the trace precede every task-succeeded
bookkeeping step?  Scanning in program order, after any `taskSucceeded`
effect no further enqueue may occur. -/
def noEnqueueAfterConsume : List Effect → Bool
  | [] => true
  | Effect.taskSucceeded _ :: rest =>
      rest.all (fun e => !(isEnqueueFx e)) && noEnqueueAfterConsume rest
  | _ :: rest => noEnqueueAfterConsume rest

/-- Does the trace consume the task record (taskSucceeded) before any
enqueue is issued?  This is the ordering the spec demands in §5. -/
def enqueueOnlyAfterConsume : List Effect → Bool :=
  go false
where
  /-- Helper scan; `seen` records whether a `taskSucceeded` effect has
  already occurred. -/
  go (seen : Bool) : List Effect → Bool
    | [] => true
    | Effect.enqueue _ _ :: rest => seen && go seen rest
    | Effect.taskSucceeded _ :: rest => go true rest
    | _ :: rest => go seen rest

/-! ### Concrete inputs used by witnesses and counterexamples -/

/-- A database with one job (id 1, pipeline 4) and no live task record. -/
def dbOneJobNoTasks : List JobRec := [{ id := 1, pipeline_id := 4, tasks := [] }]

/-- A database with one job whose only live task is `t2` (task `t1` has
already been consumed). -/
def dbOneJobStale : List JobRec := [{ id := 1, pipeline_id := 4, tasks := ["t2"] }]

/-- A database with one job whose task `t1` is still live. -/
def dbOneJobLive : List JobRec := [{ id := 1, pipeline_id := 4, tasks := ["t1"] }]

/-- A successful result for task `t1` of job 1 carrying one follow-on
worker to enqueue. -/
def resDupSuccess : ResultPayload :=
  { task_name := "t1", job_id := 1, success := true,
    workers_to_enqueue := [("BQScriptExecutor", "p1")] }

/-- A successful result for live task `t1` of job 1 carrying one
follow-on worker to enqueue. -/
def resLiveSuccess : ResultPayload :=
  { task_name := "t1", job_id := 1, success := true,
    workers_to_enqueue := [("BQWaiter", "p2")] }

/-- A result whose job id (99) matches no job row. -/
def resMissingJob : ResultPayload :=
  { task_name := "t1", job_id := 99, success := true, workers_to_enqueue := [] }

/-! ## Scheduler trigger (src/backend/controller/starter/views.py) -/

/-- A Pipeline row as seen by the scheduled scan: its id, the
`run_on_schedule` flag and the cron strings of its schedules. -/
structure SchedPipeline where
  id : Nat
  run_on_schedule : Bool
  schedules : List String
deriving DecidableEq, Repr

/-- The inner schedule loop of
`StarterResource._start_scheduled_pipelines` (starter/views.py lines
44-50): walk this pipeline's schedules in order; on the first cron match
invoke `pipeline.start()` once and break out of the loop.  Returns the
`start()` invocations (pipeline ids) the loop performs, in order.  `m`
is the external pure function `cron_utils.cron_match` applied at the
current instant (spec §1 treats cron matching as external). -/
def scanSchedules (m : String → Bool) (pid : Nat) : List String → List Nat
  | [] => []
  | s :: rest => if m s then [pid] else scanSchedules m pid rest

/-- `StarterResource._start_scheduled_pipelines` (lines 38-50): iterates
exactly over the pipelines with `run_on_schedule = True` and runs the
schedule loop for each; returns all `start()` invocations in order. -/
def startScheduledPipelines (m : String → Bool) (ps : List SchedPipeline) : List Nat :=
  (ps.filter (fun p => p.run_on_schedule)).flatMap (fun p => scanSchedules m p.id p.schedules)

/-- A pipeline with two schedules that both match every tick under
`matchEveryTick`. -/
def pipelineTwoSchedules : SchedPipeline :=
  { id := 1, run_on_schedule := true, schedules := ["* * * * *", "* * * * *"] }

/-- A concrete stand-in for `cron_match` at the current tick: matches
exactly the all-wildcards expression. -/
def matchEveryTick : String → Bool := fun c => c == "* * * * *"

/-! ## Pipeline CRUD / start / stop handlers
(src/backend/controller/pipeline/views.py) -/

/-- A persisted Pipeline row as seen by the interactive handlers. -/
structure PipelineRec where
  id : Nat
  name : String
  status : String
deriving DecidableEq, Repr

/-- Modelled from the spec: `models.Pipeline.is_blocked` (models.py is
not under src/).  Spec §4.2 and §8: a pipeline is blocked exactly while
its status is `running`. -/
def PipelineRec.is_blocked (p : PipelineRec) : Bool := p.status == "running"

/-- One operation a pipeline handler invokes on the model layer. -/
inductive PipelineFx where
  | destroy (id : Nat)
  | assign_attributes
  | save
  | save_relations
  | start (id : Nat)
  | stop (id : Nat)
deriving DecidableEq, Repr

/-- `models.Pipeline.find(pipeline_id)`: the pipeline row with the given
primary key. -/
def findPipeline (db : List PipelineRec) (pid : Nat) : Option PipelineRec :=
  db.find? (fun p => p.id == pid)

/-- Parsed body arguments for pipeline create/update; only the fields
the claims touch.  `schedules` is `none` when the body had no schedules
key (reqparse stores `None`); each schedule dict may lack its cron key,
hence `Option String` entries. -/
structure PipelineArgs where
  name : String
  schedules : Option (List (Option String))
deriving DecidableEq, Repr

/-- `PipelineSingle.get` (pipeline/views.py lines 104-108):
`abort_if_pipeline_doesnt_exist` yields a 404 response for a missing id;
otherwise the row is marshalled back with 200. -/
def pipelineGet (db : List PipelineRec) (pid : Nat) : Outcome × List PipelineFx :=
  match findPipeline db pid with
  | none => (Outcome.ok 404 ("Pipeline " ++ toString pid ++ " doesn\x27t exist"), [])
  | some _ => (Outcome.ok 200 "", [])

/-- `PipelineSingle.delete` (lines 110-121): 404 for a missing id; 422
with message and no mutation while blocked; otherwise destroys the
pipeline and returns 204. -/
def pipelineDelete (db : List PipelineRec) (pid : Nat) : Outcome × List PipelineFx :=
  match findPipeline db pid with
  | none => (Outcome.ok 404 ("Pipeline " ++ toString pid ++ " doesn\x27t exist"), [])
  | some p =>
      if p.is_blocked then
        (Outcome.ok 422 "Removing of active pipeline is unavailable", [])
      else
        (Outcome.ok 204 "", [PipelineFx.destroy p.id])

/-- `PipelineSingle.put` (lines 123-144).  `vc` is
`controller.cron_utils.is_valid_cron` (external, spec §1).  After the
404 and blocked checks, validation walks the schedules in order and the
first invalid cron yields a 422 with message before any model mutation;
only then are `assign_attributes`, `save` and `save_relations` applied.
`args.get('schedules', [])` returns the stored value, which is `None`
when the body had no schedules key, and iterating `None` raises
`TypeError`. -/
def pipelinePut (vc : String → Bool) (db : List PipelineRec) (pid : Nat)
    (args : PipelineArgs) : Outcome × List PipelineFx :=
  match findPipeline db pid with
  | none => (Outcome.ok 404 ("Pipeline " ++ toString pid ++ " doesn\x27t exist"), [])
  | some p =>
      if p.is_blocked then
        (Outcome.ok 422 "Editing of active pipeline is unavailable", [])
      else
        match args.schedules with
        | none => (Outcome.pyError "TypeError", [])
        | some scheds =>
            match scheds.find? (fun c => !(vc (c.getD ""))) with
            | some bad =>
                (Outcome.ok 422 ("Invalid cron expression: " ++ bad.getD ""), [])
            | none =>
                (Outcome.ok 200 "",
                 [PipelineFx.assign_attributes, PipelineFx.save,
                  PipelineFx.save_relations])

/-- `PipelineList.post` (lines 192-201): constructs the Pipeline row,
assigns attributes, saves it and its relations, then answers 201.  No
cron validation is performed on this create path.  `save_relations` is
modelled from the spec as relation storage only: models.py is not under
src/ and spec §7 places payload validation at the boundary, never in the
state machine. -/
def pipelineCreate (_args : PipelineArgs) : Outcome × List PipelineFx :=
  (Outcome.ok 201 "",
   [PipelineFx.assign_attributes, PipelineFx.save, PipelineFx.save_relations])

/-- `PipelineStart.post` (lines 204-213): there is no existence check,
so when `models.Pipeline.find` returns `None` the call
`pipeline.start(manual=True)` raises `AttributeError`. -/
def pipelineStartPost (db : List PipelineRec) (pid : Nat) : Outcome × List PipelineFx :=
  match findPipeline db pid with
  | none => (Outcome.pyError "AttributeError", [])
  | some p => (Outcome.ok 200 "", [PipelineFx.start p.id])

/-- `PipelineStop.post` (lines 216-225): same missing existence check as
`PipelineStart.post`. -/
def pipelineStopPost (db : List PipelineRec) (pid : Nat) : Outcome × List PipelineFx :=
  match findPipeline db pid with
  | none => (Outcome.pyError "AttributeError", [])
  | some p => (Outcome.ok 200 "", [PipelineFx.stop p.id])

/-- A pipeline row that is currently running (hence blocked). -/
def runningPipeline : PipelineRec := { id := 5, name := "p5", status := "running" }

/-- A pipeline row that is idle (not blocked). -/
def idlePipeline : PipelineRec := { id := 6, name := "p6", status := "idle" }

/-- Update arguments carrying one schedule whose cron the validator
rejects. -/
def argsBadCron : PipelineArgs :=
  { name := "p", schedules := some [some "not a cron"] }

/-! ## BigQuery worker wait loop
(src/backend/jobs/workers/bigquery/bq_worker.py) -/

/-- Observable outcome of one iteration of the polling loop of
`BQWorker._wait`: the loop guard `job.done()` is true and the loop
exits; or the guard is false and the body sleeps and re-checks
`job.done()`, breaking on true (`sleepDone`) or continuing on false
(`sleepPending`); or the poll raises a transient `WorkerException`
(`transientError`). -/
inductive Poll1 where
  | headDone
  | sleepDone
  | sleepPending
  | transientError
deriving DecidableEq, Repr

/-- Observable outcome of one `job.reload()` in the error-handling
loop: whether the job is now done and whether `job.error_result` is
still set. -/
structure Reload where
  done : Bool
  err : Bool
deriving DecidableEq, Repr

/-- Side effects of the wait loops: sleeps (with their duration in
seconds), the continuation-task enqueue (worker name and queue delay in
seconds) and log records. -/
inductive BqFx where
  | sleep (seconds : Nat)
  | enqueueWorker (name : String) (delay : Nat)
  | logInfo
  | logError
deriving DecidableEq, Repr

/-- How `BQWorker._wait` finishes. -/
inductive WaitRes where
  | normal
  | spawnedWaiter
  | fatal (attempt : Nat)
  | outOfTrace
deriving DecidableEq, Repr

/-- Mutable state of the polling loop: current backoff delay,
accumulated waiting time and retry attempt counter (`retries` is the
constant 5). -/
structure WaitSt where
  delay : Nat
  waiting : Nat
  attempt : Nat
deriving DecidableEq, Repr

/-- The polling loop of `BQWorker._wait` (bq_worker.py lines 63-87),
driven by a finite trace of poll outcomes; when the trace runs out
mid-loop the result is the artificial `outOfTrace`.  Returns the effect
trace and either the state with which control falls through to the
error-handling loop (`Sum.inl`) or an early return / raise (`Sum.inr`).
A transient `WorkerException` is modelled as raised by the `job.done()`
re-check inside the `try` block, after the sleep and the waiting-time
increment. -/
def bqWaitLoop1 : List Poll1 → WaitSt → List BqFx × (WaitSt ⊕ WaitRes)
  | [], _ => ([], Sum.inr WaitRes.outOfTrace)
  | p :: rest, st =>
    match p with
    | Poll1.headDone => ([], Sum.inl st)
    | Poll1.sleepDone =>
        if st.waiting > 300 then
          ([BqFx.enqueueWorker "BQWaiter" 60], Sum.inr WaitRes.spawnedWaiter)
        else
          ([BqFx.sleep st.delay],
           Sum.inl { st with waiting := st.waiting + st.delay })
    | Poll1.sleepPending =>
        if st.waiting > 300 then
          ([BqFx.enqueueWorker "BQWaiter" 60], Sum.inr WaitRes.spawnedWaiter)
        else
          let pr := bqWaitLoop1 rest { st with waiting := st.waiting + st.delay }
          (BqFx.sleep st.delay :: pr.1, pr.2)
    | Poll1.transientError =>
        if st.waiting > 300 then
          ([BqFx.enqueueWorker "BQWaiter" 60], Sum.inr WaitRes.spawnedWaiter)
        else
          if st.attempt < 5 then
            let d := min 30 (st.delay * 2)
            let pr := bqWaitLoop1 rest
              { delay := d, waiting := st.waiting + st.delay, attempt := st.attempt + 1 }
            (BqFx.sleep st.delay :: BqFx.logInfo :: BqFx.sleep d :: pr.1, pr.2)
          else
            ([BqFx.sleep st.delay, BqFx.logError], Sum.inr (WaitRes.fatal st.attempt))

/-- The error-handling loop of `BQWorker._wait` (lines 89-100) plus the
final `error_result` check, driven by a finite trace of reload
outcomes.  `err` is whether `job.error_result` is currently set. -/
def bqWaitLoop2 (rs : List Reload) (delay attempt : Nat) (err : Bool) :
    List BqFx × WaitRes :=
  if err then
    if attempt < 5 then
      match rs with
      | [] => ([], WaitRes.outOfTrace)
      | r :: rest =>
          let d := min 30 (delay * 2)
          if r.done && !r.err then
            ([BqFx.logInfo, BqFx.sleep d], WaitRes.normal)
          else
            let pr := bqWaitLoop2 rest d (attempt + 1) r.err
            (BqFx.logInfo :: BqFx.sleep d :: pr.1, pr.2)
    else ([BqFx.logError], WaitRes.fatal attempt)
  else ([], WaitRes.normal)

/-- `BQWorker._wait` (lines 61-100): delay starts at 5 seconds, waiting
time at 0, attempt at 0, retries is 5; the polling loop runs first and
on normal exit the error-handling loop runs.  `err0` is whether
`job.error_result` is set when the polling loop exits. -/
def bqWait (polls : List Poll1) (err0 : Bool) (reloads : List Reload) :
    List BqFx × WaitRes :=
  match bqWaitLoop1 polls { delay := 5, waiting := 0, attempt := 0 } with
  | (fx, Sum.inr r) => (fx, r)
  | (fx, Sum.inl st) =>
      let pr := bqWaitLoop2 reloads st.delay st.attempt err0
      (fx ++ pr.1, pr.2)

/-- The sleep durations occurring in an effect trace, in order. -/
def sleepsOf (fx : List BqFx) : List Nat :=
  fx.filterMap (fun e =>
    match e with
    | BqFx.sleep s => some s
    | _ => none)

/-! ## Pipeline export and import
(`PipelineExport._get_jobs` and `PipelineImport.post` /
`models.Pipeline.import_data`) -/

/-- A start-condition row: the preceding job's real id and the
condition kind (`success`, `fail`, `whatever`). -/
structure StartCond where
  preceding_job_id : Nat
  condition : String
deriving DecidableEq, Repr

/-- A Job row with the fields export carries. -/
structure JobFull where
  id : Nat
  name : String
  worker_class : String
  params : List String
  start_conditions : List StartCond
deriving DecidableEq, Repr

/-- A start condition of the export document: the preceding job's
document-local opaque identifier and the condition kind. -/
structure DocCond where
  preceding_job_id : String
  condition : String
deriving DecidableEq, Repr

/-- One job of the export document. -/
structure DocJob where
  id : String
  name : String
  worker_class : String
  params : List String
  hash_start_conditions : List DocCond
deriving DecidableEq, Repr

/-- Lookup in an association list built like a Python dict by repeated
assignment over distinct keys (the first binding wins; all builders in
this file bind each key once). -/
def dictGet {κ β : Type} [BEq κ] (m : List (κ × β)) (k : κ) : Option β :=
  (m.find? (fun kv => kv.1 == k)).map (fun kv => kv.2)

/-- `PipelineExport._get_jobs` (pipeline/views.py lines 270-300).  The
source draws one fresh `uuid4().hex` per job into `job_mapping`; the
fresh strings are supplied here as `fresh`, paired with the jobs by
position.  Python's `job_mapping[...]` raises `KeyError` on a missing
key; that lookup failure is mapped to the sentinel id `"KeyError"` (the
round-trip theorem's hypotheses rule it out). -/
def exportJobs (jobs : List JobFull) (fresh : List String) : List DocJob :=
  let m : List (Nat × String) := (jobs.zip fresh).map (fun jf => (jf.1.id, jf.2))
  (jobs.zip fresh).map (fun jf =>
    { id := (dictGet m jf.1.id).getD "KeyError",
      name := jf.1.name,
      worker_class := jf.1.worker_class,
      params := jf.1.params,
      hash_start_conditions := jf.1.start_conditions.map (fun c =>
        { preceding_job_id := (dictGet m c.preceding_job_id).getD "KeyError",
          condition := c.condition }) })

/-- Modelled from the spec: `models.Pipeline.import_data` (models.py is
not under src/).  Spec §6: import "must re-resolve them [the
document-local opaque job identifiers] to newly created real ids,
preserving the dependency graph shape exactly".  Each document job
becomes a new Job row whose real id is drawn from the fresh id supply
`newIds`, paired by position, and every start condition's opaque
preceding id is re-resolved through the document-id-to-new-id mapping
(a dangling opaque id resolves to the sentinel 0). -/
def importJobs (doc : List DocJob) (newIds : List Nat) : List JobFull :=
  let m : List (String × Nat) := (doc.zip newIds).map (fun dn => (dn.1.id, dn.2))
  (doc.zip newIds).map (fun dn =>
    { id := dn.2,
      name := dn.1.name,
      worker_class := dn.1.worker_class,
      params := dn.1.params,
      start_conditions := dn.1.hash_start_conditions.map (fun c =>
        { preceding_job_id := (dictGet m c.preceding_job_id).getD 0,
          condition := c.condition }) })

/-- The name of the job with the given real id, if any. -/
def jobName (jobs : List JobFull) (jid : Nat) : Option String :=
  (jobs.find? (fun j => j.id == jid)).map (fun j => j.name)

/-- The dependency-graph shape of a job list, ignoring ids: each job
contributes its name, worker class and params together with its start
conditions rendered as (preceding job's name, condition kind), the
preceding job being resolved by id within the list. -/
def graphShape (jobs : List JobFull) :
    List (String × String × List String × List (Option String × String)) :=
  jobs.map (fun j =>
    (j.name, j.worker_class, j.params,
     j.start_conditions.map (fun c =>
       (jobName jobs c.preceding_job_id, c.condition))))

end Crmint

namespace Crmint

/-! ## Theorems -/

/-- A trace consisting of enqueues followed by one final task-succeeded
effect has no enqueue after the consume step. -/
theorem noEnqueueAfterConsume_enqueues_then_consume
    (l : List (String × String)) (t : String) :
    noEnqueueAfterConsume
      (l.map (fun a => Effect.enqueue a.1 a.2) ++ [Effect.taskSucceeded t]) = true := by
  induction l with
  | nil => rfl
  | cons a l ih => simpa [noEnqueueAfterConsume] using ih

/-- C1: the claim says a result callback naming a missing job is logged
and answered with HTTP 200 without crashing; evaluating the handler on
such a callback (job id 99 against an empty job table) shows it logs the
error and then raises `AttributeError` — `task_failed` is called on
`None` — so no HTTP 200 is returned.  This exhibits the code bug. -/
theorem c1_missing_job_crashes :
    resultPost [] resMissingJob =
      (Outcome.pyError "AttributeError",
       [Effect.logMsg "ERROR" "Job with ID 99 not found."]) := by
  rfl

/-- C2: when the job exists but no live Task record matches the task
name, the handler returns HTTP 200 and logs a warning; on reported
success it enqueues every listed follow-on worker and applies the
task-succeeded bookkeeping, and on reported failure it marks the job
failed. -/
theorem c2_duplicate_result_safe_forward_transition
    (db : List JobRec) (res : ResultPayload) (job : JobRec)
    (hfind : findJob db res.job_id = some job)
    (hdup : tasksWithName job res.task_name = []) :
    (resultPost db res).1 = Outcome.ok 200 "Task already processed or unknown." ∧
    Effect.logMsg "WARNING"
        s!"Duplicate or unknown task result received for task name: {res.task_name}."
      ∈ (resultPost db res).2 ∧
    (res.success = true →
      (resultPost db res).2 =
        Effect.logMsg "WARNING"
            s!"Duplicate or unknown task result received for task name: {res.task_name}." ::
          (res.workers_to_enqueue.map (fun a => Effect.enqueue a.1 a.2) ++
           [Effect.taskSucceeded res.task_name])) ∧
    (res.success = false →
      (resultPost db res).2 =
        [Effect.logMsg "WARNING"
            s!"Duplicate or unknown task result received for task name: {res.task_name}.",
         Effect.taskFailed res.task_name]) := by
  cases hs : res.success <;>
    simp [resultPost, hfind, hdup, hs]

/-- Witness for C2: the duplicate-success case at a concrete database
and payload. -/
theorem c2_duplicate_result_safe_forward_transition_witness :
    (resultPost dbOneJobNoTasks resDupSuccess).1 =
      Outcome.ok 200 "Task already processed or unknown." ∧
    Effect.logMsg "WARNING"
        s!"Duplicate or unknown task result received for task name: {resDupSuccess.task_name}."
      ∈ (resultPost dbOneJobNoTasks resDupSuccess).2 ∧
    (resDupSuccess.success = true →
      (resultPost dbOneJobNoTasks resDupSuccess).2 =
        Effect.logMsg "WARNING"
            s!"Duplicate or unknown task result received for task name: {resDupSuccess.task_name}." ::
          (resDupSuccess.workers_to_enqueue.map (fun a => Effect.enqueue a.1 a.2) ++
           [Effect.taskSucceeded resDupSuccess.task_name])) ∧
    (resDupSuccess.success = false →
      (resultPost dbOneJobNoTasks resDupSuccess).2 =
        [Effect.logMsg "WARNING"
            s!"Duplicate or unknown task result received for task name: {resDupSuccess.task_name}.",
         Effect.taskFailed resDupSuccess.task_name]) :=
  c2_duplicate_result_safe_forward_transition dbOneJobNoTasks resDupSuccess
    { id := 1, pipeline_id := 4, tasks := [] } (by rfl) (by rfl)

/-- C3 counterexample: a redelivered success for the already-consumed
task `t1`, carrying one follow-on worker, makes the handler enqueue that
follow-on worker — the claim that it "enqueues no follow-on work" is
false on the code. -/
theorem c3_redelivered_success_enqueues_followup :
    (resultPost dbOneJobStale resDupSuccess).1 =
      Outcome.ok 200 "Task already processed or unknown." ∧
    Effect.enqueue "BQScriptExecutor" "p1" ∈ (resultPost dbOneJobStale resDupSuccess).2 := by
  constructor
  · rfl
  · simp [resultPost, dbOneJobStale, resDupSuccess, findJob, tasksWithName]

/-- C3 (amended): a redelivered success arriving after the task record
is gone is logged as a warning and completes without error (HTTP 200),
but rather than ignoring it for re-enqueue purposes the handler applies
the safe forward transition: it enqueues every listed follow-on worker
and applies the task-succeeded bookkeeping. -/
theorem c3_amended_redelivered_success_applies_forward_transition
    (db : List JobRec) (res : ResultPayload) (job : JobRec)
    (hfind : findJob db res.job_id = some job)
    (hdup : tasksWithName job res.task_name = [])
    (hs : res.success = true) :
    (resultPost db res).1 = Outcome.ok 200 "Task already processed or unknown." ∧
    (resultPost db res).2 =
      Effect.logMsg "WARNING"
          s!"Duplicate or unknown task result received for task name: {res.task_name}." ::
        (res.workers_to_enqueue.map (fun a => Effect.enqueue a.1 a.2) ++
         [Effect.taskSucceeded res.task_name]) := by
  simp [resultPost, hfind, hdup, hs]

/-- Witness for the amended C3 at a concrete database and payload. -/
theorem c3_amended_redelivered_success_applies_forward_transition_witness :
    (resultPost dbOneJobStale resDupSuccess).1 =
      Outcome.ok 200 "Task already processed or unknown." ∧
    (resultPost dbOneJobStale resDupSuccess).2 =
      Effect.logMsg "WARNING"
          s!"Duplicate or unknown task result received for task name: {resDupSuccess.task_name}." ::
        (resDupSuccess.workers_to_enqueue.map (fun a => Effect.enqueue a.1 a.2) ++
         [Effect.taskSucceeded resDupSuccess.task_name]) :=
  c3_amended_redelivered_success_applies_forward_transition dbOneJobStale resDupSuccess
    { id := 1, pipeline_id := 4, tasks := ["t2"] } (by rfl) (by rfl) (by rfl)

/-- C4 counterexample: on a successful result for a live task with one
follow-on worker, the handler's trace is the enqueue FOLLOWED by the
task-succeeded consumption — the enqueue is issued before, not after,
the task record's deletion is committed, so the claim is false on the
code. -/
theorem c4_enqueue_issued_before_consume :
    (resultPost dbOneJobLive resLiveSuccess).2 =
      [Effect.enqueue "BQWaiter" "p2", Effect.taskSucceeded "t1"] ∧
    enqueueOnlyAfterConsume (resultPost dbOneJobLive resLiveSuccess).2 = false := by
  constructor <;> rfl

/-- C4 (amended): for every successful result callback on an existing
job, all follow-on enqueues are issued BEFORE the task-succeeded
bookkeeping (the task record's deletion), which is applied last: the
trace contains the consumption, contains an enqueue for every listed
worker, and has no enqueue after the consumption. -/
theorem c4_amended_enqueues_precede_consume
    (db : List JobRec) (res : ResultPayload) (job : JobRec)
    (hfind : findJob db res.job_id = some job)
    (hs : res.success = true) :
    noEnqueueAfterConsume (resultPost db res).2 = true ∧
    Effect.taskSucceeded res.task_name ∈ (resultPost db res).2 ∧
    ∀ a ∈ res.workers_to_enqueue, Effect.enqueue a.1 a.2 ∈ (resultPost db res).2 := by
  by_cases hd : (tasksWithName job res.task_name).isEmpty <;>
    simp only [resultPost, hfind, hd, hs, if_true, if_false, Bool.false_eq_true] <;>
    refine ⟨?_, ?_, ?_⟩
  · simpa [noEnqueueAfterConsume] using
      noEnqueueAfterConsume_enqueues_then_consume res.workers_to_enqueue res.task_name
  · simp
  · intro a ha
    simp only [List.mem_cons, List.mem_append, List.mem_map]
    exact Or.inr (Or.inl ⟨a, ha, rfl⟩)
  · exact noEnqueueAfterConsume_enqueues_then_consume res.workers_to_enqueue res.task_name
  · simp
  · intro a ha
    simp only [List.mem_append, List.mem_map]
    exact Or.inl ⟨a, ha, rfl⟩

/-- The schedule loop starts the pipeline exactly once when some
schedule matches and not at all otherwise. -/
theorem scanSchedules_eq_ite (m : String → Bool) (pid : Nat) (l : List String) :
    scanSchedules m pid l = if l.any m then [pid] else [] := by
  induction l with
  | nil => rfl
  | cons s rest ih => by_cases h : m s <;> simp [scanSchedules, h, ih]

/-- Every `start()` invocation of the scheduled scan names the id of one
of the scanned pipelines. -/
theorem mem_startScheduledPipelines (m : String → Bool) (ps : List SchedPipeline)
    (x : Nat) (hx : x ∈ startScheduledPipelines m ps) : ∃ p ∈ ps, x = p.id := by
  unfold startScheduledPipelines at hx
  rcases List.mem_flatMap.mp hx with ⟨p, hp, hxp⟩
  refine ⟨p, (List.mem_filter.mp hp).1, ?_⟩
  rw [scanSchedules_eq_ite] at hxp
  by_cases h : p.schedules.any m <;> simp [h] at hxp
  exact hxp

/-- C5: on a scheduled-scan tick, only pipelines with
`run_on_schedule = true` are considered, and each pipeline receives
exactly one `start()` when at least one of its schedules matches the
tick (even when several match, evaluation stops at the first match) and
none otherwise. -/
theorem c5_at_most_one_start_per_tick
    (m : String → Bool) (ps : List SchedPipeline)
    (hnodup : (ps.map (fun p => p.id)).Nodup)
    (p : SchedPipeline) (hp : p ∈ ps) :
    (startScheduledPipelines m ps).count p.id =
      (if p.run_on_schedule && p.schedules.any m then 1 else 0) := by
  induction ps with
  | nil => cases hp
  | cons q qs ih =>
    rw [List.map_cons, List.nodup_cons] at hnodup
    have hnd1 := hnodup.1
    have hnd2 := hnodup.2
    have hsplit : startScheduledPipelines m (q :: qs) =
        (if q.run_on_schedule then scanSchedules m q.id q.schedules else []) ++
          startScheduledPipelines m qs := by
      by_cases hq : q.run_on_schedule <;>
        simp [startScheduledPipelines, hq]
    rcases List.mem_cons.mp hp with rfl | hp'
    · rw [hsplit, List.count_append]
      have hrest : (startScheduledPipelines m qs).count p.id = 0 := by
        rw [List.count_eq_zero]
        intro hmem
        rcases mem_startScheduledPipelines m qs _ hmem with ⟨r, hr, hxr⟩
        exact hnd1 (hxr ▸ List.mem_map.mpr ⟨r, hr, rfl⟩)
      rw [hrest, Nat.add_zero]
      by_cases hq : p.run_on_schedule
      · rw [if_pos hq, scanSchedules_eq_ite]
        by_cases hm : p.schedules.any m <;> simp [hm, hq]
      · simp [hq]
    · rw [hsplit, List.count_append, ih hnd2 hp']
      have hne : p.id ≠ q.id := by
        intro h
        exact hnd1 (h ▸ List.mem_map.mpr ⟨p, hp', rfl⟩)
      have hfirst :
          ((if q.run_on_schedule then scanSchedules m q.id q.schedules else []).count p.id)
            = 0 := by
        by_cases hq : q.run_on_schedule
        · rw [if_pos hq, scanSchedules_eq_ite]
          by_cases hm : q.schedules.any m <;> simp [hm, hne]
        · simp [hq]
      rw [hfirst, Nat.zero_add]

/-- Witness for C5: a pipeline with two schedules both matching the
current tick is started exactly once. -/
theorem c5_at_most_one_start_per_tick_witness :
    (startScheduledPipelines matchEveryTick [pipelineTwoSchedules]).count
        pipelineTwoSchedules.id =
      (if pipelineTwoSchedules.run_on_schedule &&
          pipelineTwoSchedules.schedules.any matchEveryTick then 1 else 0) :=
  c5_at_most_one_start_per_tick matchEveryTick [pipelineTwoSchedules]
    (by decide) pipelineTwoSchedules (by decide)

/-- C6: a delete or update request on a blocked pipeline (status
`running`) is rejected with HTTP 422 and an explanatory message, and
neither handler performs any model mutation. -/
theorem c6_blocked_pipeline_rejects_delete_and_update
    (vc : String → Bool) (db : List PipelineRec) (pid : Nat)
    (args : PipelineArgs) (p : PipelineRec)
    (hfind : findPipeline db pid = some p)
    (hblk : p.is_blocked = true) :
    pipelineDelete db pid =
      (Outcome.ok 422 "Removing of active pipeline is unavailable", []) ∧
    pipelinePut vc db pid args =
      (Outcome.ok 422 "Editing of active pipeline is unavailable", []) := by
  constructor <;> simp [pipelineDelete, pipelinePut, hfind, hblk]

/-- Witness for C6 on a concrete running pipeline. -/
theorem c6_blocked_pipeline_rejects_delete_and_update_witness :
    pipelineDelete [runningPipeline] 5 =
      (Outcome.ok 422 "Removing of active pipeline is unavailable", []) ∧
    pipelinePut matchEveryTick [runningPipeline] 5 argsBadCron =
      (Outcome.ok 422 "Editing of active pipeline is unavailable", []) :=
  c6_blocked_pipeline_rejects_delete_and_update matchEveryTick [runningPipeline] 5
    argsBadCron runningPipeline (by rfl) (by rfl)

/-- C7 counterexample: the create path (`PipelineList.post`) performs no
cron validation, so creating a pipeline whose only schedule carries a
cron the validator rejects is answered 201 — not 4xx — and the model is
mutated. -/
theorem c7_create_path_accepts_invalid_cron :
    (pipelineCreate argsBadCron).1 = Outcome.ok 201 "" ∧
    (pipelineCreate argsBadCron).2 ≠ [] ∧
    matchEveryTick "not a cron" = false := by
  refine ⟨rfl, ?_, rfl⟩
  simp [pipelineCreate]

/-- C7 (amended): on the update path (`PipelineSingle.put`), a payload
containing a schedule with an invalid cron expression is answered 422
with an error message naming the offending cron, and no model mutation
is performed; the create path (`PipelineList.post`) performs no cron
validation at all. -/
theorem c7_amended_update_path_rejects_invalid_cron
    (vc : String → Bool) (db : List PipelineRec) (pid : Nat)
    (args : PipelineArgs) (p : PipelineRec)
    (scheds : List (Option String)) (c : Option String)
    (hfind : findPipeline db pid = some p)
    (hblk : p.is_blocked = false)
    (hsch : args.schedules = some scheds)
    (hc : c ∈ scheds)
    (hbad : vc (c.getD "") = false) :
    ∃ bad,
      scheds.find? (fun c0 => !(vc (c0.getD ""))) = some bad ∧
      vc (bad.getD "") = false ∧
      pipelinePut vc db pid args =
        (Outcome.ok 422 ("Invalid cron expression: " ++ bad.getD ""), []) := by
  have hex : ∃ c0 ∈ scheds, (fun c0 => !(vc (c0.getD ""))) c0 = true := by
    exact ⟨c, hc, by simp [hbad]⟩
  rcases List.find?_isSome.mpr hex with h
  rcases Option.isSome_iff_exists.mp h with ⟨bad, hbadfind⟩
  refine ⟨bad, hbadfind, ?_, ?_⟩
  · have := List.find?_some hbadfind
    simpa using this
  · simp [pipelinePut, hfind, hblk, hsch, hbadfind]

/-- Witness for the amended C7 on a concrete idle pipeline and payload. -/
theorem c7_amended_update_path_rejects_invalid_cron_witness :
    ∃ bad,
      List.find? (fun c0 => !(matchEveryTick (c0.getD ""))) [some "not a cron"] = some bad ∧
      matchEveryTick (bad.getD "") = false ∧
      pipelinePut matchEveryTick [idlePipeline] 6 argsBadCron =
        (Outcome.ok 422 ("Invalid cron expression: " ++ bad.getD ""), []) :=
  c7_amended_update_path_rejects_invalid_cron matchEveryTick [idlePipeline] 6
    argsBadCron idlePipeline [some "not a cron"] (some "not a cron")
    (by rfl) (by rfl) (by rfl) (by simp) (by rfl)

/-- C8: the claim says every interactive handler answers 404 for a
missing pipeline id; evaluating the handlers on an empty database shows
get, delete and update do answer 404 without mutation, but start and
stop call `pipeline.start()` / `pipeline.stop()` on `None` and crash
with `AttributeError` instead of answering 404.  This exhibits the code
bug in `PipelineStart.post` and `PipelineStop.post`. -/
theorem c8_missing_pipeline_responses :
    pipelineGet [] 7 = (Outcome.ok 404 "Pipeline 7 doesn\x27t exist", []) ∧
    pipelineDelete [] 7 = (Outcome.ok 404 "Pipeline 7 doesn\x27t exist", []) ∧
    pipelinePut matchEveryTick [] 7 argsBadCron =
      (Outcome.ok 404 "Pipeline 7 doesn\x27t exist", []) ∧
    pipelineStartPost [] 7 = (Outcome.pyError "AttributeError", []) ∧
    pipelineStopPost [] 7 = (Outcome.pyError "AttributeError", []) := by
  refine ⟨rfl, rfl, rfl, rfl, rfl⟩

/-- Invariant of the polling loop: starting from a delay of at most 30
seconds and at most 5 attempts, every sleep is at most 30 seconds, the
state passed on to the error-handling loop keeps both bounds, and a
fatal raise happens exactly at attempt 5. -/
theorem bqWaitLoop1_inv (polls : List Poll1) (st : WaitSt)
    (hd : st.delay ≤ 30) (ha : st.attempt ≤ 5) :
    (∀ s ∈ sleepsOf (bqWaitLoop1 polls st).1, s ≤ 30) ∧
    (∀ st', (bqWaitLoop1 polls st).2 = Sum.inl st' →
      st'.delay ≤ 30 ∧ st'.attempt ≤ 5) ∧
    (∀ a, (bqWaitLoop1 polls st).2 = Sum.inr (WaitRes.fatal a) → a = 5) := by
  induction polls generalizing st with
  | nil =>
      refine ⟨?_, ?_, ?_⟩
      · intro s hs; simp [bqWaitLoop1, sleepsOf] at hs
      · intro st' h; simp [bqWaitLoop1] at h
      · intro a h; simp [bqWaitLoop1] at h
  | cons p rest ih =>
    cases p with
    | headDone =>
        refine ⟨?_, ?_, ?_⟩
        · intro s hs; simp [bqWaitLoop1, sleepsOf] at hs
        · intro st' h
          simp only [bqWaitLoop1, Sum.inl.injEq] at h
          exact h ▸ ⟨hd, ha⟩
        · intro a h; simp [bqWaitLoop1] at h
    | sleepDone =>
        by_cases hw : st.waiting > 300
        · have heq : bqWaitLoop1 (Poll1.sleepDone :: rest) st =
              ([BqFx.enqueueWorker "BQWaiter" 60], Sum.inr WaitRes.spawnedWaiter) := by
            simp [bqWaitLoop1, hw]
          rw [heq]
          refine ⟨?_, ?_, ?_⟩
          · intro s hs; simp [sleepsOf] at hs
          · intro st' h; simp at h
          · intro a h; simp at h
        · have heq : bqWaitLoop1 (Poll1.sleepDone :: rest) st =
              ([BqFx.sleep st.delay],
               Sum.inl { st with waiting := st.waiting + st.delay }) := by
            simp [bqWaitLoop1, hw]
          rw [heq]
          refine ⟨?_, ?_, ?_⟩
          · intro s hs
            simp [sleepsOf] at hs
            omega
          · intro st' h
            simp only [Sum.inl.injEq] at h
            exact h ▸ ⟨hd, ha⟩
          · intro a h; simp at h
    | sleepPending =>
        by_cases hw : st.waiting > 300
        · have heq : bqWaitLoop1 (Poll1.sleepPending :: rest) st =
              ([BqFx.enqueueWorker "BQWaiter" 60], Sum.inr WaitRes.spawnedWaiter) := by
            simp [bqWaitLoop1, hw]
          rw [heq]
          refine ⟨?_, ?_, ?_⟩
          · intro s hs; simp [sleepsOf] at hs
          · intro st' h; simp at h
          · intro a h; simp at h
        · rcases hpr : bqWaitLoop1 rest { st with waiting := st.waiting + st.delay }
            with ⟨fx1, r1⟩
          have ihs := ih { st with waiting := st.waiting + st.delay } hd ha
          rw [hpr] at ihs
          have heq : bqWaitLoop1 (Poll1.sleepPending :: rest) st =
              (BqFx.sleep st.delay :: fx1, r1) := by
            simp [bqWaitLoop1, hw, hpr]
          rw [heq]
          refine ⟨?_, ?_, ?_⟩
          · intro s hs
            have hl : sleepsOf (BqFx.sleep st.delay :: fx1) =
                st.delay :: sleepsOf fx1 := by simp [sleepsOf]
            rw [hl] at hs
            rcases List.mem_cons.mp hs with rfl | hs'
            · exact hd
            · exact ihs.1 s hs'
          · exact ihs.2.1
          · exact ihs.2.2
    | transientError =>
        by_cases hw : st.waiting > 300
        · have heq : bqWaitLoop1 (Poll1.transientError :: rest) st =
              ([BqFx.enqueueWorker "BQWaiter" 60], Sum.inr WaitRes.spawnedWaiter) := by
            simp [bqWaitLoop1, hw]
          rw [heq]
          refine ⟨?_, ?_, ?_⟩
          · intro s hs; simp [sleepsOf] at hs
          · intro st' h; simp at h
          · intro a h; simp at h
        · by_cases hatt : st.attempt < 5
          · rcases hpr : bqWaitLoop1 rest
                { delay := min 30 (st.delay * 2), waiting := st.waiting + st.delay,
                  attempt := st.attempt + 1 } with ⟨fx1, r1⟩
            have ihs := ih
              { delay := min 30 (st.delay * 2), waiting := st.waiting + st.delay,
                attempt := st.attempt + 1 }
              (min_le_left 30 (st.delay * 2)) (by show st.attempt + 1 ≤ 5; omega)
            rw [hpr] at ihs
            have heq : bqWaitLoop1 (Poll1.transientError :: rest) st =
                (BqFx.sleep st.delay :: BqFx.logInfo ::
                   BqFx.sleep (min 30 (st.delay * 2)) :: fx1, r1) := by
              simp [bqWaitLoop1, hw, hatt, hpr]
            rw [heq]
            refine ⟨?_, ?_, ?_⟩
            · intro s hs
              have hl : sleepsOf (BqFx.sleep st.delay :: BqFx.logInfo ::
                    BqFx.sleep (min 30 (st.delay * 2)) :: fx1) =
                  st.delay :: min 30 (st.delay * 2) :: sleepsOf fx1 := by
                simp [sleepsOf]
              rw [hl] at hs
              rcases List.mem_cons.mp hs with rfl | hs'
              · exact hd
              · rcases List.mem_cons.mp hs' with rfl | hs''
                · exact min_le_left 30 (st.delay * 2)
                · exact ihs.1 s hs''
            · exact ihs.2.1
            · exact ihs.2.2
          · have heq : bqWaitLoop1 (Poll1.transientError :: rest) st =
                ([BqFx.sleep st.delay, BqFx.logError],
                 Sum.inr (WaitRes.fatal st.attempt)) := by
              simp [bqWaitLoop1, hw, hatt]
            rw [heq]
            refine ⟨?_, ?_, ?_⟩
            · intro s hs
              simp [sleepsOf] at hs
              omega
            · intro st' h; simp at h
            · intro a h
              simp only [Sum.inr.injEq, WaitRes.fatal.injEq] at h
              omega

/-- Invariant of the error-handling loop: under the same bounds, every
sleep is at most 30 seconds and a fatal raise happens exactly at
attempt 5. -/
theorem bqWaitLoop2_inv (rs : List Reload) (delay attempt : Nat) (err : Bool)
    (hd : delay ≤ 30) (ha : attempt ≤ 5) :
    (∀ s ∈ sleepsOf (bqWaitLoop2 rs delay attempt err).1, s ≤ 30) ∧
    (∀ a, (bqWaitLoop2 rs delay attempt err).2 = WaitRes.fatal a → a = 5) := by
  induction rs generalizing delay attempt err with
  | nil =>
      refine ⟨?_, ?_⟩
      · intro s hs
        by_cases he : err
        · by_cases hatt : attempt < 5 <;> simp [bqWaitLoop2, he, hatt, sleepsOf] at hs
        · simp [bqWaitLoop2, he, sleepsOf] at hs
      · intro a hfa
        by_cases he : err
        · by_cases hatt : attempt < 5
          · simp [bqWaitLoop2, he, hatt] at hfa
          · simp only [bqWaitLoop2, he, hatt, if_true, if_false,
              WaitRes.fatal.injEq] at hfa
            omega
        · simp [bqWaitLoop2, he] at hfa
  | cons r rest ih =>
    by_cases he : err
    · by_cases hatt : attempt < 5
      · rcases hpr : bqWaitLoop2 rest (min 30 (delay * 2)) (attempt + 1) r.err
          with ⟨fx1, r1⟩
        have ihs := ih (min 30 (delay * 2)) (attempt + 1) r.err
          (min_le_left 30 (delay * 2)) (by omega)
        rw [hpr] at ihs
        by_cases hr : r.done && !r.err
        · have heq : bqWaitLoop2 (r :: rest) delay attempt err =
              ([BqFx.logInfo, BqFx.sleep (min 30 (delay * 2))], WaitRes.normal) := by
            simp [bqWaitLoop2, he, hatt, hr]
          rw [heq]
          refine ⟨?_, ?_⟩
          · intro s hs
            simp [sleepsOf] at hs
            exact hs ▸ min_le_left 30 (delay * 2)
          · intro a hfa; simp at hfa
        · have heq : bqWaitLoop2 (r :: rest) delay attempt err =
              (BqFx.logInfo :: BqFx.sleep (min 30 (delay * 2)) :: fx1, r1) := by
            simp [bqWaitLoop2, he, hatt, hr, hpr]
          rw [heq]
          refine ⟨?_, ?_⟩
          · intro s hs
            have hl : sleepsOf (BqFx.logInfo :: BqFx.sleep (min 30 (delay * 2)) :: fx1) =
                min 30 (delay * 2) :: sleepsOf fx1 := by simp [sleepsOf]
            rw [hl] at hs
            rcases List.mem_cons.mp hs with rfl | hs'
            · exact min_le_left 30 (delay * 2)
            · exact ihs.1 s hs'
          · exact ihs.2
      · have heq : bqWaitLoop2 (r :: rest) delay attempt err =
            ([BqFx.logError], WaitRes.fatal attempt) := by
          simp [bqWaitLoop2, he, hatt]
        rw [heq]
        refine ⟨?_, ?_⟩
        · intro s hs; simp [sleepsOf] at hs
        · intro a hfa
          simp only [WaitRes.fatal.injEq] at hfa
          omega
    · have heq : bqWaitLoop2 (r :: rest) delay attempt err = ([], WaitRes.normal) := by
        simp [bqWaitLoop2, he]
      rw [heq]
      refine ⟨?_, ?_⟩
      · intro s hs; simp [sleepsOf] at hs
      · intro a hfa; simp at hfa

/-- Facts about the full wait from the initial state (delay 5, waiting
0, attempt 0): all sleeps are capped at 30 seconds and any fatal raise
happens at attempt 5. -/
theorem bqWait_inv (polls : List Poll1) (err0 : Bool) (reloads : List Reload) :
    (∀ s ∈ sleepsOf (bqWait polls err0 reloads).1, s ≤ 30) ∧
    (∀ a, (bqWait polls err0 reloads).2 = WaitRes.fatal a → a = 5) := by
  have h1 := bqWaitLoop1_inv polls { delay := 5, waiting := 0, attempt := 0 }
    (by decide) (by decide)
  unfold bqWait
  rcases hres : bqWaitLoop1 polls { delay := 5, waiting := 0, attempt := 0 } with ⟨fx, r⟩
  rw [hres] at h1
  cases r with
  | inr w =>
      refine ⟨fun s hs => h1.1 s hs, fun a hfa => ?_⟩
      exact h1.2.2 a (by simp_all)
  | inl st =>
      have hst := h1.2.1 st rfl
      have h2 := bqWaitLoop2_inv reloads st.delay st.attempt err0 hst.1 hst.2
      refine ⟨fun s hs => ?_, fun a hfa => ?_⟩
      · simp only [sleepsOf, List.filterMap_append, List.mem_append] at hs
        rcases hs with hs | hs
        · exact h1.1 s hs
        · exact h2.1 s hs
      · exact h2.2 a hfa

/-- C10: in `BQWorker._wait`, every sleep of the retry machinery is
capped at the 30-second ceiling (the delay doubles via
`min(30, delay * 2)`); the retry count is bounded at 5 attempts and a
fatal `WorkerException` is raised exactly when the 5 retries are
exhausted; and whenever a polling iteration begins with more than 300
seconds of accumulated waiting time, the worker enqueues one `BQWaiter`
continuation task with a 60-second queue delay and returns instead of
continuing to block. -/
theorem c10_bq_wait_backoff_cap_retry_bound_handoff :
    (∀ (polls : List Poll1) (err0 : Bool) (reloads : List Reload),
      ∀ s ∈ sleepsOf (bqWait polls err0 reloads).1, s ≤ 30) ∧
    (∀ (polls : List Poll1) (err0 : Bool) (reloads : List Reload) (a : Nat),
      (bqWait polls err0 reloads).2 = WaitRes.fatal a → a = 5) ∧
    (∀ (p : Poll1) (rest : List Poll1) (st : WaitSt),
      st.waiting > 300 → p ≠ Poll1.headDone →
      bqWaitLoop1 (p :: rest) st =
        ([BqFx.enqueueWorker "BQWaiter" 60], Sum.inr WaitRes.spawnedWaiter)) := by
  refine ⟨fun polls err0 reloads => (bqWait_inv polls err0 reloads).1,
    fun polls err0 reloads => (bqWait_inv polls err0 reloads).2, ?_⟩
  intro p rest st hw hp
  cases p with
  | headDone => exact absurd rfl hp
  | sleepDone => simp [bqWaitLoop1, hw]
  | sleepPending => simp [bqWaitLoop1, hw]
  | transientError => simp [bqWaitLoop1, hw]

/-- Witness for C10: a concrete sleep of the wait loop is within the
cap; a run of six consecutive transient errors raises fatally at
attempt 5; and a polling iteration entered with 301 seconds waited
spawns the `BQWaiter` continuation with a 60-second delay. -/
theorem c10_bq_wait_backoff_cap_retry_bound_handoff_witness :
    (5 ≤ 30) ∧ (5 = 5) ∧
    bqWaitLoop1 [Poll1.sleepPending] { delay := 5, waiting := 301, attempt := 0 } =
      ([BqFx.enqueueWorker "BQWaiter" 60], Sum.inr WaitRes.spawnedWaiter) :=
  ⟨c10_bq_wait_backoff_cap_retry_bound_handoff.1
      [Poll1.sleepPending, Poll1.headDone] false [] 5 (by decide),
   c10_bq_wait_backoff_cap_retry_bound_handoff.2.1
      (List.replicate 6 Poll1.transientError) false [] 5 (by decide),
   c10_bq_wait_backoff_cap_retry_bound_handoff.2.2 Poll1.sleepPending []
      { delay := 5, waiting := 301, attempt := 0 } (by decide) (by decide)⟩

/-- Searching a list by a key projection that is duplicate-free finds
exactly the element at the key's index. -/
theorem find?_key_at_index {α κ : Type} [BEq κ] [LawfulBEq κ] (f : α → κ)
    (l : List α) (hnd : (l.map f).Nodup) (k : Nat) (hk : k < l.length) :
    l.find? (fun x => f x == f (l.get ⟨k, hk⟩)) = some (l.get ⟨k, hk⟩) := by
  induction l generalizing k with
  | nil => exact absurd hk (by simp)
  | cons a l ih =>
      rw [List.map_cons, List.nodup_cons] at hnd
      cases k with
      | zero => exact List.find?_cons_of_pos _ (by simp)
      | succ k =>
          have hk' : k < l.length := by simpa using hk
          have hgt : (a :: l).get ⟨k + 1, hk⟩ = l.get ⟨k, hk'⟩ := rfl
          rw [hgt]
          have hne : ¬(f a == f (l.get ⟨k, hk'⟩)) = true := by
            simp only [beq_iff_eq]
            intro h
            exact hnd.1 (by
              rw [h]
              exact List.mem_map.mpr ⟨l.get ⟨k, hk'⟩, List.get_mem l k hk', rfl⟩)
          rw [List.find?_cons_of_neg (p := fun x => f x == f (l.get ⟨k, hk'⟩)) l hne]
          exact ih hnd.2 k hk'

/-- Building a dict from zipped rows keyed through a projection equals
zipping the projected keys with the values. -/
theorem zip_map_key {α β κ : Type} (f : α → κ) (l : List α) (v : List β) :
    (l.zip v).map (fun p => (f p.1, p.2)) = (l.map f).zip v := by
  induction l generalizing v with
  | nil => simp
  | cons a l ih =>
      cases v with
      | nil => simp
      | cons b v => simp [ih]

/-- Looking a zipped association list up at the key of index `k` yields
the value of index `k`, provided the keys are duplicate-free. -/
theorem find?_zip_at_index {κ β : Type} [BEq κ] [LawfulBEq κ]
    (keys : List κ) (vals : List β) (hnd : keys.Nodup)
    (hlen : keys.length = vals.length) (k : Nat) (hk : k < keys.length)
    (hkv : k < vals.length) :
    (keys.zip vals).find? (fun kv => kv.1 == keys.get ⟨k, hk⟩) =
      some (keys.get ⟨k, hk⟩, vals.get ⟨k, hkv⟩) := by
  have hzlen : (keys.zip vals).length = keys.length := by
    simp [List.length_zip]
    omega
  have hk2 : k < (keys.zip vals).length := by omega
  have hmapfst : (keys.zip vals).map Prod.fst = keys :=
    List.map_fst_zip keys vals (by omega)
  have hnd2 : ((keys.zip vals).map Prod.fst).Nodup := by rw [hmapfst]; exact hnd
  have hget : (keys.zip vals).get ⟨k, hk2⟩ =
      (keys.get ⟨k, hk⟩, vals.get ⟨k, hkv⟩) := by
    simp [List.get_zip]
  have h := find?_key_at_index Prod.fst (keys.zip vals) hnd2 k hk2
  rw [hget] at h
  simpa using h

/-- `dictGet` on a zipped association list with duplicate-free keys. -/
theorem dictGet_zip_at_index {κ β : Type} [BEq κ] [LawfulBEq κ]
    (keys : List κ) (vals : List β) (hnd : keys.Nodup)
    (hlen : keys.length = vals.length) (k : Nat) (hk : k < keys.length)
    (hkv : k < vals.length) :
    dictGet (keys.zip vals) (keys.get ⟨k, hk⟩) = some (vals.get ⟨k, hkv⟩) := by
  rw [dictGet, find?_zip_at_index keys vals hnd hlen k hk hkv]
  rfl

/-- The export document has one entry per job. -/
theorem exportJobs_length (jobs : List JobFull) (fresh : List String)
    (hflen : jobs.length = fresh.length) :
    (exportJobs jobs fresh).length = jobs.length := by
  simp [exportJobs, List.length_zip]
  omega

/-- Element `i` of the export document: the job's attributes with the
real ids replaced through the fresh-id mapping. -/
theorem exportJobs_get (jobs : List JobFull) (fresh : List String)
    (hids : (jobs.map (fun j => j.id)).Nodup)
    (hflen : jobs.length = fresh.length)
    (i : Nat) (hi : i < jobs.length) (hif : i < fresh.length)
    (hi2 : i < (exportJobs jobs fresh).length) :
    (exportJobs jobs fresh).get ⟨i, hi2⟩ =
      { id := fresh.get ⟨i, hif⟩,
        name := (jobs.get ⟨i, hi⟩).name,
        worker_class := (jobs.get ⟨i, hi⟩).worker_class,
        params := (jobs.get ⟨i, hi⟩).params,
        hash_start_conditions := (jobs.get ⟨i, hi⟩).start_conditions.map (fun c =>
          { preceding_job_id :=
              (dictGet ((jobs.map (fun j => j.id)).zip fresh)
                c.preceding_job_id).getD "KeyError",
            condition := c.condition }) } := by
  have hm : (jobs.zip fresh).map (fun jf => (jf.1.id, jf.2)) =
      (jobs.map (fun j => j.id)).zip fresh := zip_map_key _ jobs fresh
  have hidm : (jobs.map (fun j => j.id)).get ⟨i, by simpa using hi⟩ =
      (jobs.get ⟨i, hi⟩).id := by
    simp [List.get_map]
  have hlook : dictGet ((jobs.map (fun j => j.id)).zip fresh)
      ((jobs.get ⟨i, hi⟩).id) = some (fresh.get ⟨i, hif⟩) := by
    rw [← hidm]
    exact dictGet_zip_at_index _ fresh hids (by simpa using hflen) i
      (by simpa using hi) hif
  simp only [exportJobs, hm, List.get_map, List.get_zip, hlook, Option.getD_some]

/-- The document-local ids of the export document are exactly the
supplied fresh identifiers, in order. -/
theorem exportJobs_map_id (jobs : List JobFull) (fresh : List String)
    (hids : (jobs.map (fun j => j.id)).Nodup)
    (hflen : jobs.length = fresh.length) :
    (exportJobs jobs fresh).map (fun d => d.id) = fresh := by
  apply List.ext_get
  · rw [List.length_map, exportJobs_length jobs fresh hflen]
    exact hflen
  · intro n h1 h2
    have hn : n < jobs.length := by
      rw [List.length_map, exportJobs_length jobs fresh hflen] at h1
      exact h1
    have hi2 : n < (exportJobs jobs fresh).length := by
      rw [exportJobs_length jobs fresh hflen]
      exact hn
    rw [List.get_map, exportJobs_get jobs fresh hids hflen n hn h2 hi2]

/-- The imported pipeline has one job per document entry. -/
theorem importJobs_length (doc : List DocJob) (newIds : List Nat)
    (hdn : doc.length = newIds.length) :
    (importJobs doc newIds).length = doc.length := by
  simp [importJobs, List.length_zip]
  omega

/-- Element `i` of the round trip: exporting and re-importing yields at
position `i` the original job's attributes with a new real id and with
each start condition re-resolved through the two id mappings. -/
theorem roundTrip_get (jobs : List JobFull) (fresh : List String) (newIds : List Nat)
    (hids : (jobs.map (fun j => j.id)).Nodup)
    (hflen : jobs.length = fresh.length)
    (i : Nat) (hi : i < jobs.length) (hin : i < newIds.length)
    (hi2 : i < (importJobs (exportJobs jobs fresh) newIds).length) :
    (importJobs (exportJobs jobs fresh) newIds).get ⟨i, hi2⟩ =
      { id := newIds.get ⟨i, hin⟩,
        name := (jobs.get ⟨i, hi⟩).name,
        worker_class := (jobs.get ⟨i, hi⟩).worker_class,
        params := (jobs.get ⟨i, hi⟩).params,
        start_conditions := (jobs.get ⟨i, hi⟩).start_conditions.map (fun c =>
          { preceding_job_id :=
              (dictGet (fresh.zip newIds)
                ((dictGet ((jobs.map (fun j => j.id)).zip fresh)
                    c.preceding_job_id).getD "KeyError")).getD 0,
            condition := c.condition }) } := by
  have hdocids : (exportJobs jobs fresh).map (fun d => d.id) = fresh :=
    exportJobs_map_id jobs fresh hids hflen
  have him : ((exportJobs jobs fresh).zip newIds).map (fun dn => (dn.1.id, dn.2)) =
      fresh.zip newIds := by
    rw [zip_map_key (fun d => d.id) (exportJobs jobs fresh) newIds, hdocids]
  have hdlen : (exportJobs jobs fresh).length = jobs.length :=
    exportJobs_length jobs fresh hflen
  have hid : i < (exportJobs jobs fresh).length := by omega
  have hif : i < fresh.length := by omega
  simp only [importJobs, him, List.get_map, List.get_zip]
  rw [exportJobs_get jobs fresh hids hflen i hi hif hid]
  simp [List.map_map, Function.comp]

/-- The real ids of the round-tripped jobs are exactly the supplied new
ids, in order. -/
theorem roundTrip_map_id (jobs : List JobFull) (fresh : List String) (newIds : List Nat)
    (hids : (jobs.map (fun j => j.id)).Nodup)
    (hflen : jobs.length = fresh.length)
    (hnlen : jobs.length = newIds.length) :
    (importJobs (exportJobs jobs fresh) newIds).map (fun j => j.id) = newIds := by
  have hdlen : (exportJobs jobs fresh).length = jobs.length :=
    exportJobs_length jobs fresh hflen
  have hilen : (importJobs (exportJobs jobs fresh) newIds).length = jobs.length := by
    rw [importJobs_length _ _ (by omega)]
    exact hdlen
  apply List.ext_get
  · rw [List.length_map, hilen]
    exact hnlen
  · intro n h1 h2
    have hn : n < jobs.length := by
      rw [List.length_map, hilen] at h1
      exact h1
    rw [List.get_map,
      roundTrip_get jobs fresh newIds hids hflen n hn h2 (by rw [hilen]; exact hn)]

/-- Searching a job list by a real id located at index `k` finds the
job at index `k`, provided ids are duplicate-free. -/
theorem find?_id_at_index (l : List JobFull)
    (hnd : (l.map (fun j => j.id)).Nodup) (k : Nat) (hk : k < l.length)
    (q : Nat) (hq : (l.get ⟨k, hk⟩).id = q) :
    l.find? (fun j => j.id == q) = some (l.get ⟨k, hk⟩) := by
  have h := find?_key_at_index (fun j => j.id) l hnd k hk
  simp only at h
  rw [hq] at h
  exact h

/-- `jobName` at an id located at index `k`. -/
theorem jobName_at_index (l : List JobFull)
    (hnd : (l.map (fun j => j.id)).Nodup) (k : Nat) (hk : k < l.length)
    (q : Nat) (hq : (l.get ⟨k, hk⟩).id = q) :
    jobName l q = some ((l.get ⟨k, hk⟩).name) := by
  rw [jobName, find?_id_at_index l hnd k hk q hq]
  rfl

/-- C9: export maps every job id to a fresh document-local opaque
identifier and rewrites each start condition's preceding_job_id through
the same mapping, and import re-resolves them to newly created real
ids, so that exporting a pipeline and re-importing the document
produces a pipeline whose dependency graph — compared by job name,
worker class, params and condition kind, ignoring ids — is identical to
the original's. -/
theorem c9_export_import_round_trip
    (jobs : List JobFull) (fresh : List String) (newIds : List Nat)
    (hids : (jobs.map (fun j => j.id)).Nodup)
    (hfresh : fresh.Nodup) (hflen : jobs.length = fresh.length)
    (hnew : newIds.Nodup) (hnlen : jobs.length = newIds.length)
    (hclosed : ∀ j ∈ jobs, ∀ c ∈ j.start_conditions,
      c.preceding_job_id ∈ jobs.map (fun j0 => j0.id)) :
    graphShape (importJobs (exportJobs jobs fresh) newIds) = graphShape jobs := by
  have hdlen : (exportJobs jobs fresh).length = jobs.length :=
    exportJobs_length jobs fresh hflen
  have hilen : (importJobs (exportJobs jobs fresh) newIds).length = jobs.length := by
    rw [importJobs_length _ _ (by omega)]
    exact hdlen
  have hndimp :
      ((importJobs (exportJobs jobs fresh) newIds).map (fun j => j.id)).Nodup := by
    rw [roundTrip_map_id jobs fresh newIds hids hflen hnlen]
    exact hnew
  apply List.ext_get
  · simp only [graphShape, List.length_map]
    exact hilen
  · intro n h1 h2
    have hn : n < jobs.length := by
      simp only [graphShape, List.length_map] at h1
      rw [hilen] at h1
      exact h1
    have hn2 : n < (importJobs (exportJobs jobs fresh) newIds).length := by
      rw [hilen]; exact hn
    have hnn : n < newIds.length := by omega
    simp only [graphShape, List.get_map]
    rw [roundTrip_get jobs fresh newIds hids hflen n hn hnn hn2]
    simp only [Prod.mk.injEq, true_and]
    rw [List.map_map]
    apply List.map_congr_left
    intro c hc
    have hq : c.preceding_job_id ∈ jobs.map (fun j0 => j0.id) :=
      hclosed (jobs.get ⟨n, hn⟩) (List.get_mem jobs n hn) c hc
    rcases List.mem_iff_get.mp hq with ⟨⟨k, hk⟩, hkq⟩
    have hkj : k < jobs.length := by simpa using hk
    have hkf : k < fresh.length := by omega
    have hkn : k < newIds.length := by omega
    have hky2 : k < (importJobs (exportJobs jobs fresh) newIds).length := by
      rw [hilen]; exact hkj
    have hinner : dictGet ((jobs.map (fun j => j.id)).zip fresh)
        c.preceding_job_id = some (fresh.get ⟨k, hkf⟩) := by
      rw [← hkq]
      exact dictGet_zip_at_index _ fresh hids (by simpa using hflen) k hk hkf
    have houter : dictGet (fresh.zip newIds) (fresh.get ⟨k, hkf⟩) =
        some (newIds.get ⟨k, hkn⟩) :=
      dictGet_zip_at_index fresh newIds hfresh (by omega) k hkf hkn
    have himpid : ((importJobs (exportJobs jobs fresh) newIds).get ⟨k, hky2⟩).id =
        newIds.get ⟨k, hkn⟩ := by
      rw [roundTrip_get jobs fresh newIds hids hflen k hkj hkn hky2]
    have hjid : (jobs.get ⟨k, hkj⟩).id = c.preceding_job_id := by
      rw [← hkq]
      simp [List.get_map]
    have hjnL : jobName (importJobs (exportJobs jobs fresh) newIds)
        (newIds.get ⟨k, hkn⟩) =
        some ((jobs.get ⟨k, hkj⟩).name) := by
      rw [jobName_at_index _ hndimp k hky2 _ himpid,
        roundTrip_get jobs fresh newIds hids hflen k hkj hkn hky2]
    have hjnR : jobName jobs c.preceding_job_id =
        some ((jobs.get ⟨k, hkj⟩).name) :=
      jobName_at_index jobs hids k hkj _ hjid
    simp only [Function.comp]
    rw [hinner]
    simp only [Option.getD_some]
    rw [houter]
    simp only [Option.getD_some]
    rw [hjnL, hjnR]

/-- Witness for C9 at a concrete two-job pipeline `A -> B (success)`. -/
theorem c9_export_import_round_trip_witness :
    graphShape (importJobs
      (exportJobs
        [{ id := 10, name := "A", worker_class := "W1", params := [],
           start_conditions := [] },
         { id := 11, name := "B", worker_class := "W2", params := [],
           start_conditions := [{ preceding_job_id := 10, condition := "success" }] }]
        ["u1", "u2"])
      [20, 21]) =
    graphShape
      [{ id := 10, name := "A", worker_class := "W1", params := [],
         start_conditions := [] },
       { id := 11, name := "B", worker_class := "W2", params := [],
         start_conditions := [{ preceding_job_id := 10, condition := "success" }] }] :=
  c9_export_import_round_trip _ _ _ (by decide) (by decide) (by decide)
    (by decide) (by decide) (by decide)

/-- Witness for the amended C4 at a concrete database and payload. -/
theorem c4_amended_enqueues_precede_consume_witness :
    noEnqueueAfterConsume (resultPost dbOneJobLive resLiveSuccess).2 = true ∧
    Effect.taskSucceeded resLiveSuccess.task_name ∈ (resultPost dbOneJobLive resLiveSuccess).2 ∧
    ∀ a ∈ resLiveSuccess.workers_to_enqueue,
      Effect.enqueue a.1 a.2 ∈ (resultPost dbOneJobLive resLiveSuccess).2 :=
  c4_amended_enqueues_precede_consume dbOneJobLive resLiveSuccess
    { id := 1, pipeline_id := 4, tasks := ["t1"] } (by rfl) (by rfl)

end Crmint
